import Mathlib

/-!
# Verification of the calculator history / undo-redo core

Shallow embedding of the calculator repository's history manager
(`app/calculation/__init__.py`: `CalculatorMemento`, `Calculator`) together
with its configuration validation (`app/calculator_config/__init__.py`).

Python mutable state is modelled by explicit state passing; Python lists are
Lean lists in the same element order (so `list.pop()` removes the LAST
element, modelled with `List.getLast?`/`List.dropLast`, and `list.append`
adds at the end); Python exceptions are modelled with `Except`; `float`
operands are modelled as rationals (none of the verified properties depend
on floating-point rounding).  `datetime.datetime` values are modelled by
their broken-down fields, and `isoformat`/`fromisoformat` are implemented on
actual strings.
-/

/-- Model of `datetime.datetime`: the fields that `isoformat()` prints. -/
structure DateTime where
  year : Nat
  month : Nat
  day : Nat
  hour : Nat
  minute : Nat
  second : Nat
  microsecond : Nat
deriving DecidableEq, Repr

/-- The field ranges a Python `datetime` object guarantees. -/
def DateTime.valid (t : DateTime) : Prop :=
  1 ≤ t.year ∧ t.year ≤ 9999 ∧
  1 ≤ t.month ∧ t.month ≤ 12 ∧
  1 ≤ t.day ∧ t.day ≤ 31 ∧
  t.hour ≤ 23 ∧ t.minute ≤ 59 ∧ t.second ≤ 59 ∧ t.microsecond ≤ 999999

instance (t : DateTime) : Decidable t.valid := by
  unfold DateTime.valid; infer_instance

/-- Big-endian fixed-width decimal digits of `n` (zero padded), as used by
`%04d`-style formatting inside `datetime.isoformat`. -/
def natToDigits : Nat → Nat → List Nat
  | 0, _ => []
  | w + 1, n => natToDigits w (n / 10) ++ [n % 10]

/-- Read back a big-endian digit list. -/
def digitsToNat (ds : List Nat) : Nat :=
  ds.foldl (fun acc d => acc * 10 + d) 0

def digitChar (d : Nat) : Char := Char.ofNat (48 + d)

def charDigit (c : Char) : Nat := c.toNat - 48

def isDigitChar (c : Char) : Bool := 48 ≤ c.toNat && c.toNat ≤ 57

/-- Fixed-width zero-padded decimal rendering, as characters. -/
def digitsChars (w n : Nat) : List Char := (natToDigits w n).map digitChar

/-- Character stream of `datetime.isoformat()`: `YYYY-MM-DDTHH:MM:SS` followed
by `.ffffff` exactly when the microsecond field is nonzero. -/
def isoChars (t : DateTime) : List Char :=
  digitsChars 4 t.year ++ ('-' :: (digitsChars 2 t.month ++ ('-' :: (digitsChars 2 t.day
    ++ ('T' :: (digitsChars 2 t.hour ++ (':' :: (digitsChars 2 t.minute
    ++ (':' :: (digitsChars 2 t.second
    ++ (if t.microsecond = 0 then [] else '.' :: digitsChars 6 t.microsecond)))))))))))

/-- Rendering of `datetime.isoformat()`. -/
def DateTime.isoformat (t : DateTime) : String := String.mk (isoChars t)

/-- Read `w` decimal digits from the front of a character stream. -/
def readFixed (w : Nat) (cs : List Char) : Option (Nat × List Char) :=
  let pre := cs.take w
  if pre.length = w && pre.all isDigitChar then
    some (digitsToNat (pre.map charDigit), cs.drop w)
  else
    none

/-- Consume one expected separator character. -/
def expectChar (c : Char) : List Char → Option (List Char)
  | [] => none
  | x :: rest => if x = c then some rest else none

/-- The optional fractional-seconds suffix: empty means zero microseconds,
otherwise a dot followed by exactly six digits. -/
def parseFraction : List Char → Option Nat
  | [] => some 0
  | '.' :: rest =>
      match readFixed 6 rest with
      | some (us, []) => some us
      | _ => none
  | _ => none

/-- Parser for `datetime.fromisoformat` on the formats `isoformat` emits
(`YYYY-MM-DDTHH:MM:SS` with optional `.ffffff`); rejects out-of-range
fields, as the Python parser does. -/
def parseIsoChars (cs : List Char) : Option DateTime := do
  let (y, cs) ← readFixed 4 cs
  let cs ← expectChar '-' cs
  let (mo, cs) ← readFixed 2 cs
  let cs ← expectChar '-' cs
  let (d, cs) ← readFixed 2 cs
  let cs ← expectChar 'T' cs
  let (h, cs) ← readFixed 2 cs
  let cs ← expectChar ':' cs
  let (mi, cs) ← readFixed 2 cs
  let cs ← expectChar ':' cs
  let (se, cs) ← readFixed 2 cs
  let us ← parseFraction cs
  let t : DateTime := ⟨y, mo, d, h, mi, se, us⟩
  if t.valid then some t else none

/-- Wrapper for `datetime.datetime.fromisoformat` on strings. -/
def fromisoformat (s : String) : Option DateTime := parseIsoChars s.data

theorem digitsToNat_natToDigits (w : Nat) :
    ∀ n : Nat, n < 10 ^ w → digitsToNat (natToDigits w n) = n := by
  induction w with
  | zero => intro n hn; interval_cases n; rfl
  | succ w ih =>
      intro n hn
      have hdiv : n / 10 < 10 ^ w := by
        rw [Nat.div_lt_iff_lt_mul (by norm_num)]
        calc n < 10 ^ (w + 1) := hn
        _ = 10 ^ w * 10 := by ring
      have := ih (n / 10) hdiv
      simp only [natToDigits, digitsToNat, List.foldl_append, List.foldl_cons,
        List.foldl_nil] at *
      rw [this]
      omega

theorem natToDigits_length (w n : Nat) : (natToDigits w n).length = w := by
  induction w generalizing n with
  | zero => rfl
  | succ w ih => simp [natToDigits, ih]

theorem natToDigits_lt (w n : Nat) : ∀ d ∈ natToDigits w n, d < 10 := by
  induction w generalizing n with
  | zero => intro d hd; simp [natToDigits] at hd
  | succ w ih =>
      intro d hd
      simp only [natToDigits, List.mem_append, List.mem_singleton] at hd
      rcases hd with hd | hd
      · exact ih _ d hd
      · subst hd; exact Nat.mod_lt _ (by norm_num)

theorem charDigit_digitChar {d : Nat} (hd : d < 10) : charDigit (digitChar d) = d := by
  interval_cases d <;> rfl

theorem isDigitChar_digitChar {d : Nat} (hd : d < 10) : isDigitChar (digitChar d) = true := by
  interval_cases d <;> rfl

theorem digitsChars_length (w n : Nat) : (digitsChars w n).length = w := by
  simp [digitsChars, natToDigits_length]

/-- Reading fixed-width digits undoes fixed-width rendering. -/
theorem readFixed_digitsChars (w n : Nat) (rest : List Char) (hn : n < 10 ^ w) :
    readFixed w (digitsChars w n ++ rest) = some (n, rest) := by
  have hlen : (digitsChars w n).length = w := digitsChars_length w n
  have htake : (digitsChars w n ++ rest).take w = digitsChars w n :=
    List.take_left' hlen
  have hdrop : (digitsChars w n ++ rest).drop w = rest :=
    List.drop_left' hlen
  have hall : (digitsChars w n).all isDigitChar = true := by
    rw [List.all_eq_true]
    intro c hc
    simp only [digitsChars, List.mem_map] at hc
    obtain ⟨d, hd, rfl⟩ := hc
    exact isDigitChar_digitChar (natToDigits_lt w n d hd)
  have hmap : (digitsChars w n).map charDigit = natToDigits w n := by
    simp only [digitsChars, List.map_map]
    rw [List.map_congr_left, List.map_id]
    intro d hd
    exact charDigit_digitChar (natToDigits_lt w n d hd)
  simp only [readFixed, htake, hdrop, hlen, hall, hmap]
  simp [digitsToNat_natToDigits w n hn]

theorem expectChar_cons (c : Char) (rest : List Char) :
    expectChar c (c :: rest) = some rest := by
  simp [expectChar]

theorem parseFraction_nil : parseFraction [] = some 0 := rfl

theorem parseFraction_dot (us : Nat) (hus : us < 10 ^ 6) :
    parseFraction ('.' :: digitsChars 6 us) = some us := by
  have : digitsChars 6 us = digitsChars 6 us ++ [] := by simp
  rw [parseFraction, this, readFixed_digitsChars 6 us [] hus]

set_option maxHeartbeats 1000000 in
/-- Parsing undoes rendering at the character level, on valid datetimes. -/
theorem parseIso_isoChars (t : DateTime) (ht : t.valid) :
    parseIsoChars (isoChars t) = some t := by
  obtain ⟨hy1, hy2, hm1, hm2, hd1, hd2, hh, hmi, hs, hus⟩ := ht
  have hy : t.year < 10 ^ 4 := by omega
  have hmo : t.month < 10 ^ 2 := by omega
  have hd : t.day < 10 ^ 2 := by omega
  have hh' : t.hour < 10 ^ 2 := by omega
  have hmi' : t.minute < 10 ^ 2 := by omega
  have hs' : t.second < 10 ^ 2 := by omega
  have hus' : t.microsecond < 10 ^ 6 := by omega
  rw [parseIsoChars, isoChars]
  rw [readFixed_digitsChars 4 t.year _ hy]
  simp only [Option.bind_eq_bind, Option.some_bind, expectChar_cons]
  rw [readFixed_digitsChars 2 t.month _ hmo]
  simp only [Option.some_bind, expectChar_cons]
  rw [readFixed_digitsChars 2 t.day _ hd]
  simp only [Option.some_bind, expectChar_cons]
  rw [readFixed_digitsChars 2 t.hour _ hh']
  simp only [Option.some_bind, expectChar_cons]
  rw [readFixed_digitsChars 2 t.minute _ hmi']
  simp only [Option.some_bind, expectChar_cons]
  rw [readFixed_digitsChars 2 t.second _ hs']
  simp only [Option.some_bind]
  obtain ⟨y, mo, d, h, mi, se, us⟩ := t
  simp only at *
  by_cases h0 : us = 0
  · subst h0
    rw [if_pos rfl, parseFraction_nil]
    simp only [Option.some_bind]
    rw [if_pos]
    unfold DateTime.valid
    simp only
    omega
  · rw [if_neg h0, parseFraction_dot us hus']
    simp only [Option.some_bind]
    rw [if_pos]
    unfold DateTime.valid
    simp only
    omega

/-- Function `fromisoformat` is a left inverse of `isoformat` on valid datetimes. -/
theorem fromisoformat_isoformat (t : DateTime) (ht : t.valid) :
    fromisoformat t.isoformat = some t :=
  parseIso_isoChars t ht

/-! ## Data model: calculations, plain forms, errors -/

/-- The result of an operation: `CalculationResult = Union[Number, str]`.
Numbers are modelled as rationals. -/
inductive CalcValue where
  | num (q : ℚ)
  | str (s : String)
deriving DecidableEq, Repr

/-- A value in a plain mapping / CSV row: either a number or a string, as
produced by serialization and by the tabular reader's column typing. -/
inductive PlainVal where
  | num (q : ℚ)
  | str (s : String)
deriving DecidableEq, Repr

/-- The Python exception kinds the core raises or observes
(`app/exceptions`): `ValidationError`, `OperationError`,
`ConfigurationError`, and any other exception, each carrying its message
(`str(e)`). -/
inductive PyErr where
  | validationError (msg : String)
  | operationError (msg : String)
  | configurationError (msg : String)
  | otherError (msg : String)
deriving DecidableEq, Repr

/-- The text `f"{e}"` interpolates for an exception: its message. -/
def errMsg : PyErr → String
  | .validationError m => m
  | .operationError m => m
  | .configurationError m => m
  | .otherError m => m

/-- Modelled from the spec: the `Calculation` record (its module is not in
the sources; §3 of the spec): an immutable record of one arithmetic event —
operation name, two numeric operands, result (numeric or string), and a
creation timestamp. -/
structure Calculation where
  operation : String
  operand1 : ℚ
  operand2 : ℚ
  result : CalcValue
  timestamp : DateTime
deriving DecidableEq, Repr

/-- The plain mapping serialized for one `Calculation`: keys `operation`,
`operand1`, `operand2`, `result`, `timestamp` (§4.3 / §6 of the spec). -/
structure CalcDict where
  operation : PlainVal
  operand1 : PlainVal
  operand2 : PlainVal
  result : PlainVal
  timestamp : PlainVal
deriving DecidableEq, Repr

/-- Embed a result value into a plain-mapping value. -/
def CalcValue.toPlain : CalcValue → PlainVal
  | .num q => .num q
  | .str s => .str s

/-- Modelled from the spec: `Calculation.to_dict` (§4.3): operation as a
string, operands and result as-is, timestamp as an ISO-8601 string. -/
def Calculation.to_dict (c : Calculation) : CalcDict where
  operation := .str c.operation
  operand1 := .num c.operand1
  operand2 := .num c.operand2
  result := c.result.toPlain
  timestamp := .str c.timestamp.isoformat

/-- Read a plain value back as a result value. -/
def PlainVal.toCalcValue : PlainVal → CalcValue
  | .num q => .num q
  | .str s => .str s

/-- Modelled from the spec: `Calculation.from_dict` (§4.3, §6): the exact
inverse of `to_dict`; a non-numeric operand column or an unparsable
timestamp raises (modelled as an error result, wrapped by the callers). -/
def Calculation.from_dict (d : CalcDict) : Except PyErr Calculation := do
  let operation ←
    match d.operation with
    | .str s => Except.ok s
    | .num q => Except.ok (toString q.num)
  let operand1 ←
    match d.operand1 with
    | .num q => Except.ok q
    | .str s => Except.error (.otherError ("could not convert string to number: " ++ s))
  let operand2 ←
    match d.operand2 with
    | .num q => Except.ok q
    | .str s => Except.error (.otherError ("could not convert string to number: " ++ s))
  let result := d.result.toCalcValue
  let timestamp ←
    match d.timestamp with
    | .str s =>
        match fromisoformat s with
        | some t => Except.ok t
        | none => Except.error (.otherError ("Invalid isoformat string: " ++ s))
    | .num q => Except.error (.otherError ("Invalid isoformat string: " ++ toString q.num))
  Except.ok ⟨operation, operand1, operand2, result, timestamp⟩

/-- Sequential fallible map, as a Python list comprehension behaves: the
first failing element aborts the whole conversion with its exception. -/
def mapExcept {α β : Type} (f : α → Except PyErr β) : List α → Except PyErr (List β)
  | [] => Except.ok []
  | x :: xs => do
      let y ← f x
      let ys ← mapExcept f xs
      Except.ok (y :: ys)

/-- Source `CalculatorMemento` (dataclass): stores calculator state for
undo/redo. -/
structure CalculatorMemento where
  history : List Calculation
  timestamp : DateTime
deriving DecidableEq, Repr

/-- The plain mapping serialized for a memento. -/
structure MementoDict where
  history : List CalcDict
  timestamp : String
deriving DecidableEq, Repr

/-- Source `CalculatorMemento.to_dict`: convert memento to dictionary. -/
def CalculatorMemento.to_dict (m : CalculatorMemento) : MementoDict where
  history := m.history.map Calculation.to_dict
  timestamp := m.timestamp.isoformat

/-- Source `CalculatorMemento.from_dict`: create memento from dictionary. -/
def CalculatorMemento.from_dict (d : MementoDict) : Except PyErr CalculatorMemento := do
  let history ← mapExcept Calculation.from_dict d.history
  let timestamp ←
    match fromisoformat d.timestamp with
    | some t => Except.ok t
    | none => Except.error (.otherError ("Invalid isoformat string: " ++ d.timestamp))
  Except.ok ⟨history, timestamp⟩

/-! ## Strategies, observers, configuration -/

/-- An operation strategy (`app/operations`, external collaborator):
`str(strategy)` is its display name, `execute` may raise. -/
structure Operation where
  name : String
  execute : ℚ → ℚ → Except PyErr CalcValue

/-- An observer (`app/history`, external collaborator): `update` is invoked
with each new calculation and may raise. -/
structure Observer where
  update : Calculation → Except PyErr Unit

/-- Source `CalculatorConfig` (`app/calculator_config/__init__.py`):
the fields `validate` inspects, plus the remaining scalar settings.
`Decimal` is modelled as a rational; the path-valued properties are
external file-system concerns and carry no validated state. -/
structure CalculatorConfig where
  max_history_size : Int
  auto_save : Bool
  precision : Int
  max_input_value : ℚ
  default_encoding : String

/-- Source `CalculatorConfig.__init__`: Python `x or default` replaces any
falsy argument (`None`, `0`) by the default. -/
def orDefaultInt (x : Option Int) (d : Int) : Int :=
  match x with
  | none => d
  | some v => if v = 0 then d else v

/-- Python `x or default` for a `Decimal` argument. -/
def orDefaultRat (x : Option ℚ) (d : ℚ) : ℚ :=
  match x with
  | none => d
  | some v => if v = 0 then d else v

/-- Python `x or default` for a string argument. -/
def orDefaultStr (x : Option String) (d : String) : String :=
  match x with
  | none => d
  | some v => if v = "" then d else v

/-- Source `CalculatorConfig.__init__` with its defaulting: note that
`auto_save` alone uses an `is not None` test rather than `or`. -/
def CalculatorConfig.mk_init (max_history_size : Option Int) (auto_save : Option Bool)
    (precision : Option Int) (max_input_value : Option ℚ)
    (default_encoding : Option String) : CalculatorConfig where
  max_history_size := orDefaultInt max_history_size 500
  auto_save := auto_save.getD true
  precision := orDefaultInt precision 2
  max_input_value := orDefaultRat max_input_value 1000000
  default_encoding := orDefaultStr default_encoding "utf-8"

/-- Source `CalculatorConfig.validate`: raises `ConfigurationError` on a
non-positive max history size, a non-positive max input value, or a
negative precision (the `isinstance` guards are enforced by typing here). -/
def CalculatorConfig.validate (c : CalculatorConfig) : Except PyErr Unit :=
  if c.max_history_size ≤ 0 then
    Except.error (.configurationError "Max history size must be a positive integer.")
  else if c.max_input_value ≤ 0 then
    Except.error (.configurationError "Max input value must be a positive decimal.")
  else if c.precision < 0 then
    Except.error (.configurationError "Precision must be a non-negative integer.")
  else
    Except.ok ()

/-! ## Calculator state and transitions (`Calculator` in
`app/calculation/__init__.py`) -/

/-- The mutable attributes of a `Calculator` instance. -/
structure CalculatorState where
  config : CalculatorConfig
  history : List Calculation
  operation_strategy : Option Operation
  observers : List Observer
  undo_stack : List CalculatorMemento
  redo_stack : List CalculatorMemento

/-- Source `Calculator.notify_observers` / `HistoryObserver.update`: invoke
each observer in registration order, stopping at the first raising observer
(its exception propagates).  Returns the positions of the observers whose
`update` was invoked, and the exception of the first failing one, if any. -/
def notifyFrom (i : Nat) (c : Calculation) : List Observer → List Nat × Option PyErr
  | [] => ([], none)
  | o :: rest =>
      match o.update c with
      | Except.ok _ =>
          let (tr, f) := notifyFrom (i + 1) c rest
          (i :: tr, f)
      | Except.error e => ([i], some e)

/-- Source `Calculator.notify_observers`. -/
def Calculator.notify_observers (obs : List Observer) (c : Calculation) :
    List Nat × Option PyErr :=
  notifyFrom 0 c obs

/-- The `Calculation` literal built inside `perform_operation`. -/
def mkCalc (op : Operation) (now : DateTime) (a b : ℚ) (r : CalcValue) : Calculation where
  operation := op.name
  operand1 := a
  operand2 := b
  result := r
  timestamp := now

/-- The two `except` clauses of `perform_operation`: a `ValidationError` is
re-raised unchanged, anything else becomes
`OperationError(f"Operation failed: {e}")`. -/
def wrapNonValidation : PyErr → PyErr
  | .validationError m => .validationError m
  | e => .operationError ("Operation failed: " ++ errMsg e)

/-- Source `Calculator.perform_operation`: requires a strategy; executes it,
appends the new `Calculation` to the live history, then notifies observers.
Returns the call's outcome, the post-call state, and the positions of the
observers whose `update` ran.  `datetime.datetime.now()` is passed in as
`now`; the `float` coercion of the operands is the identity on our numeric
carrier. -/
def Calculator.perform_operation (s : CalculatorState) (now : DateTime) (a b : ℚ) :
    Except PyErr CalcValue × CalculatorState × List Nat :=
  match s.operation_strategy with
  | none => (Except.error (.operationError "No operation set"), s, [])
  | some op =>
      match op.execute a b with
      | Except.error e => (Except.error (wrapNonValidation e), s, [])
      | Except.ok r =>
          let c := mkCalc op now a b r
          let s1 := { s with history := s.history ++ [c] }
          let (tr, f) := Calculator.notify_observers s1.observers c
          match f with
          | none => (Except.ok r, s1, tr)
          | some e => (Except.error (wrapNonValidation e), s1, tr)

/-- Source `Calculator.undo`: pop the last memento off `undo_stack`, push a
snapshot of the current history onto `redo_stack`, and install the popped
history as the live history.  Returns `false` and changes nothing when
`undo_stack` is empty.  List `.copy()` is the identity on pure lists; the
pushed memento's default timestamp (`datetime.now`) is passed as `now`. -/
def Calculator.undo (s : CalculatorState) (now : DateTime) : Bool × CalculatorState :=
  match s.undo_stack.getLast? with
  | none => (false, s)
  | some memento =>
      (true, { s with
        undo_stack := s.undo_stack.dropLast,
        redo_stack := s.redo_stack ++ [⟨s.history, now⟩],
        history := memento.history })

/-- Source `Calculator.redo`: symmetric to `undo`, with the two stacks
swapped. -/
def Calculator.redo (s : CalculatorState) (now : DateTime) : Bool × CalculatorState :=
  match s.redo_stack.getLast? with
  | none => (false, s)
  | some memento =>
      (true, { s with
        redo_stack := s.redo_stack.dropLast,
        undo_stack := s.undo_stack ++ [⟨s.history, now⟩],
        history := memento.history })

/-- Source `Calculator.clear_history`: empties the live history and both
stacks. -/
def Calculator.clear_history (s : CalculatorState) : CalculatorState :=
  { s with history := [], undo_stack := [], redo_stack := [] }

/-- Source `Calculator.load_history`: the history file is modelled as
`none` (absent) or `some rows` (the parsed tabular rows).  When the file is
absent nothing happens; otherwise every row is converted with
`Calculation.from_dict`, and any failure is wrapped into an
`OperationError` leaving the live history unmodified. -/
def Calculator.load_history (s : CalculatorState) (file : Option (List CalcDict)) :
    Except PyErr Unit × CalculatorState :=
  match file with
  | none => (Except.ok (), s)
  | some rows =>
      match mapExcept Calculation.from_dict rows with
      | Except.ok h => (Except.ok (), { s with history := h })
      | Except.error e =>
          (Except.error (.operationError ("Failed to load history: " ++ errMsg e)), s)

/-- Source `Calculator.__init__`: validates the configuration (aborting
construction on a `ConfigurationError`), starts from empty history, stacks
and observers, then tries `load_history`, swallowing any load failure. -/
def Calculator.mk_init (config : CalculatorConfig) (file : Option (List CalcDict)) :
    Except PyErr CalculatorState :=
  match config.validate with
  | Except.error e => Except.error e
  | Except.ok _ =>
      let s : CalculatorState :=
        { config := config, history := [], operation_strategy := none,
          observers := [], undo_stack := [], redo_stack := [] }
      Except.ok (Calculator.load_history s file).2

/-- A sequence of `perform_operation` calls (each with its `now` timestamp
and operands): final state, the per-call observer traces, and whether every
call succeeded. -/
def runCalls (s : CalculatorState) :
    List (DateTime × ℚ × ℚ) → CalculatorState × List (List Nat) × Bool
  | [] => (s, [], true)
  | (t, a, b) :: rest =>
      let p := Calculator.perform_operation s t a b
      let q := runCalls p.2.1 rest
      (q.1, p.2.2 :: q.2.1, p.1.toBool && q.2.2)

/-! ## Helper lemmas -/

theorem notifyFrom_ok_trace (c : Calculation) :
    ∀ (obs : List Observer) (i : Nat), (notifyFrom i c obs).2 = none →
      (notifyFrom i c obs).1 = List.range' i obs.length := by
  intro obs
  induction obs with
  | nil => intro i _; rfl
  | cons o rest ih =>
      intro i hnone
      simp only [notifyFrom] at hnone ⊢
      cases hu : o.update c with
      | ok _ =>
          simp only [hu] at hnone ⊢
          simp only [List.length_cons, List.range'_succ]
          have := ih (i + 1)
          cases hrec : notifyFrom (i + 1) c rest with
          | mk tr f =>
              simp only [hrec] at hnone ⊢
              have htr := this (by simpa [hrec] using hnone)
              simp only [hrec] at htr
              simp [htr]
      | error e => simp [hu] at hnone

/-- A `perform_operation` call never changes any state component other
than the live history. -/
theorem perform_operation_frame_all (s : CalculatorState) (now : DateTime) (a b : ℚ) :
    (Calculator.perform_operation s now a b).2.1.config = s.config ∧
    (Calculator.perform_operation s now a b).2.1.operation_strategy = s.operation_strategy ∧
    (Calculator.perform_operation s now a b).2.1.observers = s.observers ∧
    (Calculator.perform_operation s now a b).2.1.undo_stack = s.undo_stack ∧
    (Calculator.perform_operation s now a b).2.1.redo_stack = s.redo_stack := by
  unfold Calculator.perform_operation
  split
  · exact ⟨rfl, rfl, rfl, rfl, rfl⟩
  · split
    · exact ⟨rfl, rfl, rfl, rfl, rfl⟩
    · dsimp only
      split
      · exact ⟨rfl, rfl, rfl, rfl, rfl⟩
      · exact ⟨rfl, rfl, rfl, rfl, rfl⟩

/-- Anatomy of a successful `perform_operation` call: the strategy was set
and succeeded, exactly one calculation was appended, and the observer trace
covers every registered observer once, in registration order. -/
theorem perform_operation_ok_inv (s : CalculatorState) (now : DateTime) (a b : ℚ)
    (r : CalcValue) (hok : (Calculator.perform_operation s now a b).1 = Except.ok r) :
    ∃ op, s.operation_strategy = some op ∧ op.execute a b = Except.ok r ∧
      Calculator.perform_operation s now a b =
        (Except.ok r, { s with history := s.history ++ [mkCalc op now a b r] },
          List.range s.observers.length) := by
  unfold Calculator.perform_operation at hok ⊢
  split at hok
  · simp at hok
  · next op hs =>
    split at hok
    · simp at hok
    · next r' he =>
      dsimp only at hok ⊢
      split at hok
      · next hn =>
        simp only [Except.ok.injEq] at hok
        subst hok
        refine ⟨op, hs, he, ?_⟩
        rw [hs]
        have htr := notifyFrom_ok_trace (mkCalc op now a b r') s.observers 0 hn
        rw [Calculator.notify_observers] at hn ⊢
        rw [htr, List.range_eq_range']
      · next e hn => simp at hok

/-- Empty-stack equation of `undo`. -/
theorem undo_empty (s : CalculatorState) (now : DateTime) (h : s.undo_stack = []) :
    Calculator.undo s now = (false, s) := by
  unfold Calculator.undo
  rw [h]
  rfl

/-- Non-empty-stack equation of `undo`. -/
theorem undo_concat (s : CalculatorState) (now : DateTime) (stk : List CalculatorMemento)
    (m : CalculatorMemento) (h : s.undo_stack = stk ++ [m]) :
    Calculator.undo s now =
      (true, { s with
        undo_stack := stk,
        redo_stack := s.redo_stack ++ [⟨s.history, now⟩],
        history := m.history }) := by
  unfold Calculator.undo
  rw [h, List.getLast?_concat, List.dropLast_concat]

/-- Empty-stack equation of `redo`. -/
theorem redo_empty (s : CalculatorState) (now : DateTime) (h : s.redo_stack = []) :
    Calculator.redo s now = (false, s) := by
  unfold Calculator.redo
  rw [h]
  rfl

/-- Non-empty-stack equation of `redo`. -/
theorem redo_concat (s : CalculatorState) (now : DateTime) (stk : List CalculatorMemento)
    (m : CalculatorMemento) (h : s.redo_stack = stk ++ [m]) :
    Calculator.redo s now =
      (true, { s with
        redo_stack := stk,
        undo_stack := s.undo_stack ++ [⟨s.history, now⟩],
        history := m.history }) := by
  unfold Calculator.redo
  rw [h, List.getLast?_concat, List.dropLast_concat]

/-! ## Sample values exercising the theorems on concrete inputs -/

def tsA : DateTime := ⟨2024, 1, 2, 3, 4, 5, 0⟩

def tsB : DateTime := ⟨2024, 1, 2, 3, 4, 6, 123456⟩

/-- A strategy that behaves like the addition operation. -/
def addOp : Operation := ⟨"Addition", fun a b => Except.ok (.num (a + b))⟩

/-- An observer whose `update` never raises. -/
def okObserver : Observer := ⟨fun _ => Except.ok ()⟩

def sampleConfig : CalculatorConfig := ⟨500, true, 2, 1000000, "utf-8"⟩

def calcA : Calculation := ⟨"Addition", 2, 3, .num 5, tsA⟩

/-- A state with one recorded calculation, one undoable snapshot, and two
registered observers. -/
def sampleState : CalculatorState :=
  ⟨sampleConfig, [calcA], some addOp, [okObserver, okObserver], [⟨[], tsA⟩], []⟩

/-- A state whose undo and redo stacks are both empty. -/
def emptyStacksState : CalculatorState :=
  ⟨sampleConfig, [calcA], some addOp, [okObserver], [], []⟩

/-! ## Claims -/

/-- C1: for every calculator state with a non-empty `undo_stack`, calling
`undo()` and then immediately `redo()` (with no intervening
`perform_operation` or `clear_history`) restores the live history to exactly
the sequence it held before the undo. -/
theorem claim_C1_undo_redo_roundtrip (s : CalculatorState) (t1 t2 : DateTime)
    (h : s.undo_stack ≠ []) :
    ((Calculator.redo (Calculator.undo s t1).2 t2).2).history = s.history := by
  obtain hnil | ⟨stk, m, hs⟩ := s.undo_stack.eq_nil_or_concat'
  · exact absurd hnil h
  rw [undo_concat s t1 stk m hs]
  rw [redo_concat _ t2 s.redo_stack ⟨s.history, t1⟩ rfl]

theorem claim_C1_undo_redo_roundtrip_witness :
    ((Calculator.redo (Calculator.undo sampleState tsA).2 tsB).2).history =
      sampleState.history :=
  claim_C1_undo_redo_roundtrip sampleState tsA tsB (by decide)

/-- C3: a successful `perform_operation` call leaves `undo_stack` and
`redo_stack` exactly as they were: it pushes no snapshot onto either. -/
theorem claim_C3_perform_pushes_no_snapshot (s : CalculatorState) (now : DateTime)
    (a b : ℚ) (_hok : (Calculator.perform_operation s now a b).1.toBool = true) :
    (Calculator.perform_operation s now a b).2.1.undo_stack = s.undo_stack ∧
    (Calculator.perform_operation s now a b).2.1.redo_stack = s.redo_stack :=
  ⟨(perform_operation_frame_all s now a b).2.2.2.1,
   (perform_operation_frame_all s now a b).2.2.2.2⟩

theorem claim_C3_perform_pushes_no_snapshot_witness :
    (Calculator.perform_operation sampleState tsB 2 3).2.1.undo_stack =
      sampleState.undo_stack ∧
    (Calculator.perform_operation sampleState tsB 2 3).2.1.redo_stack =
      sampleState.redo_stack :=
  claim_C3_perform_pushes_no_snapshot sampleState tsB 2 3 (by decide)

/-- C4: `undo()` on an empty `undo_stack` returns a failure indicator
without raising, leaving all state unchanged, and `redo()` on an empty
`redo_stack` is symmetric. -/
theorem claim_C4_empty_stack_noop (s : CalculatorState) (t : DateTime) :
    (s.undo_stack = [] → Calculator.undo s t = (false, s)) ∧
    (s.redo_stack = [] → Calculator.redo s t = (false, s)) :=
  ⟨undo_empty s t, redo_empty s t⟩

theorem claim_C4_empty_stack_noop_witness :
    Calculator.undo emptyStacksState tsA = (false, emptyStacksState) ∧
    Calculator.redo emptyStacksState tsA = (false, emptyStacksState) :=
  ⟨(claim_C4_empty_stack_noop emptyStacksState tsA).1 rfl,
   (claim_C4_empty_stack_noop emptyStacksState tsA).2 rfl⟩

/-- A strategy that raises a `ValidationError`, as division does on a zero
divisor. -/
def valFailOp : Operation :=
  ⟨"Division", fun _ _ => Except.error (.validationError "Division by zero is not allowed")⟩

/-- A strategy that raises a non-validation exception. -/
def otherFailOp : Operation := ⟨"Weird", fun _ _ => Except.error (.otherError "boom")⟩

def valFailState : CalculatorState := ⟨sampleConfig, [], some valFailOp, [], [], []⟩

def otherFailState : CalculatorState := ⟨sampleConfig, [], some otherFailOp, [], [], []⟩

/-- C6: a `ValidationError` raised by the operation strategy propagates to
the caller unchanged; any other strategy error reaches the caller as an
`OperationError` carrying the original cause's message. -/
theorem claim_C6_validation_unwrapped_other_wrapped (s : CalculatorState) (now : DateTime)
    (a b : ℚ) (op : Operation) (e : PyErr)
    (hs : s.operation_strategy = some op) (he : op.execute a b = Except.error e) :
    ((∃ m, e = PyErr.validationError m) →
      (Calculator.perform_operation s now a b).1 = Except.error e) ∧
    ((∀ m, e ≠ PyErr.validationError m) →
      (Calculator.perform_operation s now a b).1 =
        Except.error (PyErr.operationError ("Operation failed: " ++ errMsg e))) := by
  have hperf : (Calculator.perform_operation s now a b).1 =
      Except.error (wrapNonValidation e) := by
    unfold Calculator.perform_operation
    simp only [hs, he]
  constructor
  · rintro ⟨m, rfl⟩
    rw [hperf]
    rfl
  · intro hm
    rw [hperf]
    cases e with
    | validationError m => exact absurd rfl (hm m)
    | operationError m => rfl
    | configurationError m => rfl
    | otherError m => rfl

theorem claim_C6_validation_unwrapped_other_wrapped_witness :
    (Calculator.perform_operation valFailState tsA 1 0).1 =
      Except.error (PyErr.validationError "Division by zero is not allowed") ∧
    (Calculator.perform_operation otherFailState tsA 1 2).1 =
      Except.error (PyErr.operationError ("Operation failed: " ++ "boom")) :=
  ⟨(claim_C6_validation_unwrapped_other_wrapped valFailState tsA 1 0 valFailOp _ rfl rfl).1
      ⟨"Division by zero is not allowed", rfl⟩,
   (claim_C6_validation_unwrapped_other_wrapped otherFailState tsA 1 2 otherFailOp _ rfl rfl).2
      (fun _ h => PyErr.noConfusion h)⟩

/-- C9: a configuration whose `max_history_size` is non-positive, or whose
`max_input_value` is non-positive, or whose `precision` is negative, makes
`Calculator` construction abort with a `ConfigurationError`. -/
theorem claim_C9_invalid_config_aborts (config : CalculatorConfig)
    (file : Option (List CalcDict))
    (h : config.max_history_size ≤ 0 ∨ config.max_input_value ≤ 0 ∨ config.precision < 0) :
    ∃ m, Calculator.mk_init config file = Except.error (PyErr.configurationError m) := by
  by_cases h1 : config.max_history_size ≤ 0
  · exact ⟨"Max history size must be a positive integer.",
      by simp [Calculator.mk_init, CalculatorConfig.validate, h1]⟩
  · by_cases h2 : config.max_input_value ≤ 0
    · exact ⟨"Max input value must be a positive decimal.",
        by simp [Calculator.mk_init, CalculatorConfig.validate, h1, h2]⟩
    · have h3 : config.precision < 0 := by tauto
      exact ⟨"Precision must be a non-negative integer.",
        by simp [Calculator.mk_init, CalculatorConfig.validate, h1, h2, h3]⟩

theorem claim_C9_invalid_config_aborts_witness :
    (⟨0, true, 2, 1000000, "utf-8"⟩ : CalculatorConfig).max_history_size ≤ 0 ∧
    ∃ m, Calculator.mk_init ⟨0, true, 2, 1000000, "utf-8"⟩ none =
      Except.error (PyErr.configurationError m) :=
  ⟨by decide,
   claim_C9_invalid_config_aborts ⟨0, true, 2, 1000000, "utf-8"⟩ none (Or.inl (by decide))⟩

/-- Running a sequence of calls that all succeed: the final history is the
initial one plus one calculation per call, in call order, and every call
notified each registered observer exactly once, in registration order. -/
theorem runCalls_ok_general :
    ∀ (calls : List (DateTime × ℚ × ℚ)) (s : CalculatorState),
      (runCalls s calls).2.2 = true →
      ∃ cs : List Calculation,
        (runCalls s calls).1.history = s.history ++ cs ∧
        cs.length = calls.length ∧
        (runCalls s calls).1.observers = s.observers ∧
        (∀ i (hi : i < calls.length) (hc : i < cs.length),
          (cs.get ⟨i, hc⟩).operand1 = (calls.get ⟨i, hi⟩).2.1 ∧
          (cs.get ⟨i, hc⟩).operand2 = (calls.get ⟨i, hi⟩).2.2 ∧
          (cs.get ⟨i, hc⟩).timestamp = (calls.get ⟨i, hi⟩).1) ∧
        (runCalls s calls).2.1 = calls.map (fun _ => List.range s.observers.length) := by
  intro calls
  induction calls with
  | nil =>
      intro s _
      refine ⟨[], by simp [runCalls], rfl, rfl, ?_, rfl⟩
      intro i hi hc
      simp at hi
  | cons hd rest ih =>
      intro s hok
      obtain ⟨t, a, b⟩ := hd
      simp only [runCalls] at hok ⊢
      rw [Bool.and_eq_true] at hok
      obtain ⟨hr, hq⟩ := hok
      have hr' : ∃ r, (Calculator.perform_operation s t a b).1 = Except.ok r := by
        cases hp : (Calculator.perform_operation s t a b).1 with
        | ok r => exact ⟨r, rfl⟩
        | error e => rw [hp] at hr; simp [Except.toBool] at hr
      obtain ⟨r, hr'⟩ := hr'
      obtain ⟨op, hs, he, heq⟩ := perform_operation_ok_inv s t a b r hr'
      obtain ⟨cs', hhist, hlen, hobs, hidx, htrs⟩ :=
        ih { s with history := s.history ++ [mkCalc op t a b r] } (by rw [heq] at hq; exact hq)
      rw [heq]
      dsimp only
      refine ⟨mkCalc op t a b r :: cs', ?_, by simp [hlen], hobs, ?_, ?_⟩
      · rw [hhist]
        simp
      · intro i hi hc
        cases i with
        | zero => exact ⟨rfl, rfl, rfl⟩
        | succ j =>
            have hj : j < rest.length := by simpa using hi
            have hjc : j < cs'.length := by simpa using hc
            exact hidx j hj hjc
      · rw [htrs]
        simp

/-- A state with empty history, an addition strategy and two observers. -/
def emptyHistState : CalculatorState :=
  ⟨sampleConfig, [], some addOp, [okObserver, okObserver], [], []⟩

/-- C2: starting from an empty history, N successful `perform_operation`
calls leave a live history of length N whose entries correspond to the
calls in order, and each call invokes the update method of every registered
observer exactly once, in registration order (trace `[0, ..., n-1]`). -/
theorem claim_C2_history_length_and_observer_fanout (s : CalculatorState)
    (calls : List (DateTime × ℚ × ℚ))
    (hemp : s.history = []) (hok : (runCalls s calls).2.2 = true) :
    (runCalls s calls).1.history.length = calls.length ∧
    (∀ i (hi : i < calls.length),
      ∃ hh : i < (runCalls s calls).1.history.length,
        ((runCalls s calls).1.history.get ⟨i, hh⟩).operand1 = (calls.get ⟨i, hi⟩).2.1 ∧
        ((runCalls s calls).1.history.get ⟨i, hh⟩).operand2 = (calls.get ⟨i, hi⟩).2.2 ∧
        ((runCalls s calls).1.history.get ⟨i, hh⟩).timestamp = (calls.get ⟨i, hi⟩).1) ∧
    (runCalls s calls).2.1 = calls.map (fun _ => List.range s.observers.length) := by
  obtain ⟨cs, hhist, hlen, _, hidx, htrs⟩ := runCalls_ok_general calls s hok
  rw [hemp] at hhist
  simp only [List.nil_append] at hhist
  refine ⟨by rw [hhist, hlen], ?_, htrs⟩
  intro i hi
  have hh : i < (runCalls s calls).1.history.length := by rw [hhist, hlen]; exact hi
  have hc : i < cs.length := by rw [hlen]; exact hi
  have hget := List.get_of_eq hhist ⟨i, hh⟩
  refine ⟨hh, ?_⟩
  rw [hget]
  exact hidx i hi hc

theorem claim_C2_history_length_and_observer_fanout_witness :
    (runCalls emptyHistState [(tsA, 2, 3), (tsB, 4, 5)]).1.history.length = 2 ∧
    (runCalls emptyHistState [(tsA, 2, 3), (tsB, 4, 5)]).2.1 = [[0, 1], [0, 1]] :=
  ⟨(claim_C2_history_length_and_observer_fanout emptyHistState [(tsA, 2, 3), (tsB, 4, 5)]
      rfl (by decide)).1,
   by
     rw [(claim_C2_history_length_and_observer_fanout emptyHistState [(tsA, 2, 3), (tsB, 4, 5)]
       rfl (by decide)).2.2]
     decide⟩

theorem toPlain_toCalcValue (r : CalcValue) : r.toPlain.toCalcValue = r := by
  cases r <;> rfl

/-- Serialization round trip for a single calculation record. -/
theorem Calculation.from_to_dict (c : Calculation) (ht : c.timestamp.valid) :
    Calculation.from_dict (Calculation.to_dict c) = Except.ok c := by
  obtain ⟨op, a, b, r, t⟩ := c
  simp only [Calculation.to_dict, Calculation.from_dict]
  rw [fromisoformat_isoformat t ht]
  simp only [toPlain_toCalcValue]
  rfl

/-- Round trip of the row-wise conversion over a serialized history. -/
theorem mapExcept_from_to_dict (h : List Calculation) (hh : ∀ c ∈ h, c.timestamp.valid) :
    mapExcept Calculation.from_dict (h.map Calculation.to_dict) = Except.ok h := by
  induction h with
  | nil => rfl
  | cons c rest ih =>
      simp only [List.map_cons, mapExcept]
      rw [Calculation.from_to_dict c (hh c (List.mem_cons_self c rest))]
      rw [ih (fun c' hc' => hh c' (List.mem_cons_of_mem c hc'))]
      rfl

/-- C5: deserializing a memento's serialized plain form reconstructs a
memento whose history equals the original element-wise in every field and
whose timestamp equals the original (the ISO-8601 renderings used for the
timestamps are exact on datetime values, so the round trip is exact). -/
theorem claim_C5_memento_dict_roundtrip (m : CalculatorMemento)
    (ht : m.timestamp.valid) (hh : ∀ c ∈ m.history, c.timestamp.valid) :
    CalculatorMemento.from_dict (CalculatorMemento.to_dict m) = Except.ok m := by
  obtain ⟨h, t⟩ := m
  simp only [CalculatorMemento.to_dict, CalculatorMemento.from_dict]
  simp only at ht hh
  rw [mapExcept_from_to_dict h hh]
  rw [fromisoformat_isoformat t ht]
  rfl

theorem claim_C5_memento_dict_roundtrip_witness :
    CalculatorMemento.from_dict (CalculatorMemento.to_dict ⟨[calcA], tsB⟩) =
      Except.ok ⟨[calcA], tsB⟩ :=
  claim_C5_memento_dict_roundtrip ⟨[calcA], tsB⟩ (by decide) (by decide)

/-- Conversion of a whole rowset fails as soon as any row fails. -/
theorem mapExcept_error_of_mem {α β : Type} (f : α → Except PyErr β) :
    ∀ l : List α, (∃ r ∈ l, (f r).toBool = false) →
      ∃ e, mapExcept f l = Except.error e := by
  intro l
  induction l with
  | nil => rintro ⟨r, hr, _⟩; simp at hr
  | cons x xs ih =>
      rintro ⟨r, hr, hbad⟩
      rw [List.mem_cons] at hr
      cases hfx : f x with
      | error e0 => exact ⟨e0, by simp only [mapExcept, hfx]; rfl⟩
      | ok y =>
          rcases hr with rfl | hr
          · rw [hfx] at hbad; simp [Except.toBool] at hbad
          · obtain ⟨e1, he1⟩ := ih ⟨r, hr, hbad⟩
            exact ⟨e1, by simp only [mapExcept, hfx, he1]; rfl⟩

/-- C7 counterexample: with a prior state whose live history is non-empty
and the history file absent, `load_history` raises no error but the live
history afterwards is NOT empty — it is left untouched — contradicting
"yields an empty live history ... for every prior state of the
calculator". -/
theorem claim_C7_counterexample :
    (Calculator.load_history sampleState none).1 = Except.ok () ∧
    (Calculator.load_history sampleState none).2.history ≠ [] :=
  ⟨rfl, by decide⟩

/-- C7 (amended): `load_history` with the history file absent raises no
error and leaves the live history exactly as it was — hence empty at
construction, where the history starts empty — and loading a file
containing a malformed row (one whose record conversion fails, e.g. a
non-numeric operand column) raises an `OperationError`. -/
theorem claim_C7_load_history_amended (s : CalculatorState) (rows : List CalcDict)
    (hbad : ∃ r ∈ rows, (Calculation.from_dict r).toBool = false) :
    (Calculator.load_history s none = (Except.ok (), s)) ∧
    (∃ m, (Calculator.load_history s (some rows)).1 =
      Except.error (PyErr.operationError m)) := by
  refine ⟨rfl, ?_⟩
  obtain ⟨e, he⟩ := mapExcept_error_of_mem Calculation.from_dict rows hbad
  exact ⟨"Failed to load history: " ++ errMsg e, by
    simp only [Calculator.load_history, he]⟩

/-- A tabular row whose `operand1` column is not numeric. -/
def badRow : CalcDict :=
  ⟨.str "Addition", .str "abc", .num 3, .num 5, .str "2024-01-02T03:04:05"⟩

theorem claim_C7_load_history_amended_witness :
    Calculator.load_history sampleState none = (Except.ok (), sampleState) :=
  (claim_C7_load_history_amended sampleState [badRow] (by decide)).1

/-- Decides whether a call outcome is an `OperationError`. -/
def isOperationError : Except PyErr CalcValue → Bool
  | .error (.operationError _) => true
  | _ => false

/-- An observer whose `update` raises a `ValidationError`. -/
def valObserver : Observer := ⟨fun _ => Except.error (.validationError "observer says no")⟩

/-- An observer whose `update` raises an `OperationError`, as the auto-save
observer does when persistence fails. -/
def opFailObserver : Observer := ⟨fun _ => Except.error (.operationError "disk full")⟩

def obsValState : CalculatorState := ⟨sampleConfig, [], some addOp, [valObserver], [], []⟩

def obsOpFailState : CalculatorState :=
  ⟨sampleConfig, [], some addOp, [opFailObserver], [], []⟩

/-- C10 counterexample: when the strategy succeeds but an observer raises a
`ValidationError`, the caller receives that `ValidationError` unchanged —
not an `OperationError` — because the `except ValidationError` clause
re-raises it. -/
theorem claim_C10_counterexample :
    (Calculator.perform_operation obsValState tsA 1 2).1 =
      Except.error (PyErr.validationError "observer says no") ∧
    isOperationError (Calculator.perform_operation obsValState tsA 1 2).1 = false :=
  ⟨rfl, rfl⟩

/-- C10 (amended): when the strategy succeeds but a registered observer's
`update` raises, the newly created `Calculation` remains appended to the
live history (the append is not rolled back), and the caller receives an
`OperationError` carrying the observer failure's message — unless the
observer raised a `ValidationError`, which is propagated unchanged. -/
theorem claim_C10_observer_failure_keeps_append (s : CalculatorState) (now : DateTime)
    (a b : ℚ) (op : Operation) (r : CalcValue) (e : PyErr)
    (hs : s.operation_strategy = some op) (he : op.execute a b = Except.ok r)
    (hn : (Calculator.notify_observers s.observers (mkCalc op now a b r)).2 = some e) :
    (Calculator.perform_operation s now a b).2.1.history =
      s.history ++ [mkCalc op now a b r] ∧
    ((∀ m, e ≠ PyErr.validationError m) →
      (Calculator.perform_operation s now a b).1 =
        Except.error (PyErr.operationError ("Operation failed: " ++ errMsg e))) ∧
    ((∃ m, e = PyErr.validationError m) →
      (Calculator.perform_operation s now a b).1 = Except.error e) := by
  have hperf : Calculator.perform_operation s now a b =
      (Except.error (wrapNonValidation e),
        { s with history := s.history ++ [mkCalc op now a b r] },
        (Calculator.notify_observers s.observers (mkCalc op now a b r)).1) := by
    unfold Calculator.perform_operation
    simp only [hs, he]
    cases hp : Calculator.notify_observers s.observers (mkCalc op now a b r) with
    | mk tr f =>
        rw [hp] at hn
        simp only at hn
        subst hn
        rfl
  refine ⟨by rw [hperf], ?_, ?_⟩
  · intro hm
    rw [hperf]
    cases e with
    | validationError m => exact absurd rfl (hm m)
    | operationError m => rfl
    | configurationError m => rfl
    | otherError m => rfl
  · rintro ⟨m, rfl⟩
    rw [hperf]
    rfl

theorem claim_C10_observer_failure_keeps_append_witness :
    (Calculator.perform_operation obsOpFailState tsA 1 2).2.1.history =
      [] ++ [mkCalc addOp tsA 1 2 (.num 3)] ∧
    (Calculator.perform_operation obsOpFailState tsA 1 2).1 =
      Except.error (PyErr.operationError
        ("Operation failed: " ++ errMsg (PyErr.operationError "disk full"))) :=
  ⟨(claim_C10_observer_failure_keeps_append obsOpFailState tsA 1 2 addOp (.num 3)
      (PyErr.operationError "disk full") rfl (by simp [addOp]; norm_num) rfl).1,
   (claim_C10_observer_failure_keeps_append obsOpFailState tsA 1 2 addOp (.num 3)
      (PyErr.operationError "disk full") rfl (by simp [addOp]; norm_num) rfl).2.1
      (fun _ h => PyErr.noConfusion h)⟩

/-! ## Reference-level model for snapshot independence (C8)

The pure model above treats Python lists as values, which cannot even
express aliasing.  To settle whether a stored memento can be corrupted by
later live-history mutation, this refined model makes the heap explicit:
every Python list object is a cell in a store, `.copy()` allocates a fresh
cell, and the in-place mutations (`history.append(...)` in
`perform_operation`, `history.clear()` in `clear_history`) write through
the live reference only. -/

/-- A memento as an object holding a reference to its history list. -/
structure RefMemento where
  ref : Nat
  timestamp : DateTime
deriving DecidableEq, Repr

/-- The heap-level calculator state: an arena of list objects, the live
history reference, and the two snapshot stacks. -/
structure RefState where
  store : List (List Calculation)
  historyRef : Nat
  undoStack : List RefMemento
  redoStack : List RefMemento
deriving DecidableEq, Repr

/-- Dereference a list object. -/
def storeGet (st : List (List Calculation)) (r : Nat) : List Calculation :=
  st.getD r []

/-- Heap effect of the `self.history.append(calculation)` statement in
`perform_operation`: in-place mutation of the live list object. -/
def refPerform (s : RefState) (c : Calculation) : RefState :=
  { s with store := s.store.set s.historyRef (storeGet s.store s.historyRef ++ [c]) }

/-- Heap effect of `clear_history`: `self.history.clear()` empties the live
list object in place, and both stacks are emptied (dropping their
references; the memento objects themselves are not written to). -/
def refClear (s : RefState) : RefState :=
  { s with store := s.store.set s.historyRef [],
           undoStack := [], redoStack := [] }

/-- Heap effect of `undo`: pop the last memento, push onto `redoStack` a
fresh memento built from `self.history.copy()` (a newly allocated cell),
and rebind `self.history` to a fresh copy of the popped memento's list. -/
def refUndo (s : RefState) (now : DateTime) : Bool × RefState :=
  match s.undoStack.getLast? with
  | none => (false, s)
  | some m =>
      let store1 := s.store ++ [storeGet s.store s.historyRef]
      let r1 := s.store.length
      let store2 := store1 ++ [storeGet store1 m.ref]
      let r2 := store1.length
      (true, { store := store2, historyRef := r2,
               undoStack := s.undoStack.dropLast,
               redoStack := s.redoStack ++ [⟨r1, now⟩] })

/-- Heap effect of `redo`: symmetric to `refUndo`. -/
def refRedo (s : RefState) (now : DateTime) : Bool × RefState :=
  match s.redoStack.getLast? with
  | none => (false, s)
  | some m =>
      let store1 := s.store ++ [storeGet s.store s.historyRef]
      let r1 := s.store.length
      let store2 := store1 ++ [storeGet store1 m.ref]
      let r2 := store1.length
      (true, { store := store2, historyRef := r2,
               redoStack := s.redoStack.dropLast,
               undoStack := s.undoStack ++ [⟨r1, now⟩] })

/-- The four live-history mutations the claim quantifies over. -/
inductive RefOp where
  | performOp (c : Calculation)
  | clearOp
  | undoOp (now : DateTime)
  | redoOp (now : DateTime)

def refStep : RefOp → RefState → RefState
  | .performOp c, s => refPerform s c
  | .clearOp, s => refClear s
  | .undoOp t, s => (refUndo s t).2
  | .redoOp t, s => (refRedo s t).2

/-- Well-formedness of a heap state: the live reference and all memento
references are allocated, and no stored memento aliases the live list.
This holds for every state the calculator can reach, because mementos are
only ever built from `.copy()`-fresh cells. -/
def RefState.WF (s : RefState) : Prop :=
  s.historyRef < s.store.length ∧
  ∀ m ∈ s.undoStack ++ s.redoStack, m.ref < s.store.length ∧ m.ref ≠ s.historyRef

instance (s : RefState) : Decidable s.WF := by
  unfold RefState.WF; infer_instance

theorem storeGet_set_ne (st : List (List Calculation)) (i r : Nat) (v : List Calculation)
    (hne : r ≠ i) : storeGet (st.set i v) r = storeGet st r := by
  unfold storeGet
  rcases Nat.lt_or_ge r st.length with hr | hr
  · rw [List.getD_eq_getElem?_getD, List.getD_eq_getElem?_getD,
        List.getElem?_set_ne (by omega)]
  · rw [List.getD_eq_getElem?_getD, List.getD_eq_getElem?_getD]
    rw [List.getElem?_eq_none (by simpa using hr), List.getElem?_eq_none (by omega)]

theorem storeGet_append (st ext : List (List Calculation)) (r : Nat)
    (hr : r < st.length) : storeGet (st ++ ext) r = storeGet st r := by
  unfold storeGet
  rw [List.getD_eq_getElem?_getD, List.getD_eq_getElem?_getD,
      List.getElem?_append_left hr]

/-- Reachable heap states stay well-formed: every mutation either writes
through the live reference only or allocates fresh cells for the snapshots
it stores, so no stored memento ever aliases the live list. -/
theorem refStep_preserves_WF (s : RefState) (hwf : s.WF) (op : RefOp) :
    (refStep op s).WF := by
  obtain ⟨hlive, hrefs⟩ := hwf
  cases op with
  | performOp c =>
      refine ⟨by simpa [refStep, refPerform] using hlive, ?_⟩
      intro m hm
      have := hrefs m (by simpa [refStep, refPerform] using hm)
      simpa [refStep, refPerform] using this
  | clearOp =>
      refine ⟨by simpa [refStep, refClear] using hlive, ?_⟩
      intro m hm
      simp [refStep, refClear] at hm
  | undoOp t =>
      simp only [refStep]
      unfold refUndo
      cases hg : s.undoStack.getLast? with
      | none => exact ⟨hlive, hrefs⟩
      | some mm =>
          dsimp only
          constructor
          · simp
          · intro m hm
            simp only [List.mem_append, List.mem_singleton] at hm
            rcases hm with hm | hm | hm
            · have hmem : m ∈ s.undoStack := List.dropLast_subset _ hm
              have := hrefs m (List.mem_append_left _ hmem)
              simp only [List.length_append, List.length_singleton]
              omega
            · have := hrefs m (List.mem_append_right _ hm)
              simp only [List.length_append, List.length_singleton]
              omega
            · subst hm
              simp only [List.length_append, List.length_singleton]
              omega
  | redoOp t =>
      simp only [refStep]
      unfold refRedo
      cases hg : s.redoStack.getLast? with
      | none => exact ⟨hlive, hrefs⟩
      | some mm =>
          dsimp only
          constructor
          · simp
          · intro m hm
            simp only [List.mem_append, List.mem_singleton] at hm
            rcases hm with (hm | hm) | hm
            · have := hrefs m (List.mem_append_left _ hm)
              simp only [List.length_append, List.length_singleton]
              omega
            · subst hm
              simp only [List.length_append, List.length_singleton]
              omega
            · have hmem : m ∈ s.redoStack := List.dropLast_subset _ hm
              have := hrefs m (List.mem_append_right _ hmem)
              simp only [List.length_append, List.length_singleton]
              omega

/-- C8: a memento stored on either stack of a well-formed state holds an
independent copy of the history: none of the four live-history mutations
(`perform_operation` append, `clear_history`, `undo`, `redo`) changes the
list object a previously pushed memento refers to. -/
theorem claim_C8_stored_snapshots_immutable (s : RefState) (m : RefMemento)
    (hwf : s.WF) (hm : m ∈ s.undoStack ++ s.redoStack) (op : RefOp) :
    storeGet (refStep op s).store m.ref = storeGet s.store m.ref := by
  obtain ⟨hlive, hrefs⟩ := hwf
  obtain ⟨hmlt, hmne⟩ := hrefs m hm
  cases op with
  | performOp c => exact storeGet_set_ne s.store s.historyRef m.ref _ hmne
  | clearOp => exact storeGet_set_ne s.store s.historyRef m.ref _ hmne
  | undoOp t =>
      simp only [refStep]
      unfold refUndo
      cases hg : s.undoStack.getLast? with
      | none => rfl
      | some mm =>
          dsimp only
          rw [storeGet_append _ _ m.ref (by simpa using Nat.lt_succ_of_lt hmlt),
              storeGet_append _ _ m.ref hmlt]
  | redoOp t =>
      simp only [refStep]
      unfold refRedo
      cases hg : s.redoStack.getLast? with
      | none => rfl
      | some mm =>
          dsimp only
          rw [storeGet_append _ _ m.ref (by simpa using Nat.lt_succ_of_lt hmlt),
              storeGet_append _ _ m.ref hmlt]

/-- A concrete well-formed heap state: cell 0 is the live (empty) history,
cell 1 is a snapshot holding one calculation, referenced by one stored
undo memento. -/
def refSample : RefState := ⟨[[], [calcA]], 0, [⟨1, tsA⟩], []⟩

theorem claim_C8_stored_snapshots_immutable_witness :
    storeGet (refStep (.performOp calcA) refSample).store (1 : Nat) =
      storeGet refSample.store (1 : Nat) :=
  claim_C8_stored_snapshots_immutable refSample ⟨1, tsA⟩ (by decide) (by decide)
    (.performOp calcA)
